import Mathlib

set_option maxRecDepth 4000

/-! Shallow embedding of the vscode-launch-gen merge engine.

The JSON data model follows serde_json values; objects are ordered
association lists (serde_json map with insertion order preserved), and
error strings mirror the messages built in src/schema.rs and
src/generator.rs (up to quoting of embedded values).  File-system reads
are modelled by finite association lists from path or template name to
the parsed JSON value of that file. -/

inductive Json where
  | null : Json
  | bool (b : Bool) : Json
  | num (n : Int) : Json
  | str (s : String) : Json
  | arr (items : List Json) : Json
  | obj (fields : List (String × Json)) : Json

/-- First-match lookup in an ordered JSON object, as serde_json map get. -/
def lookupKey : List (String × Json) → String → Option Json
  | [], _ => none
  | (k', v') :: rest, k => if k' = k then some v' else lookupKey rest k

/-- Map insert: replace in place if the key exists, append otherwise. -/
def insertKey : List (String × Json) → String → Json → List (String × Json)
  | [], k, v => [(k, v)]
  | (k', v') :: rest, k, v =>
    if k' = k then (k', v) :: rest else (k', v') :: insertKey rest k v

def containsKey (fields : List (String × Json)) (k : String) : Bool :=
  (lookupKey fields k).isSome

/-- as_str on an optional JSON value. -/
def getString : Option Json → Option String
  | some (Json.str s) => some s
  | _ => none

/-- as_bool on an optional JSON value. -/
def getBool : Option Json → Option Bool
  | some (Json.bool b) => some b
  | _ => none

/-- Collect an all-strings JSON array, failing on any non-string element. -/
def allStrings : List Json → Option (List String)
  | [] => some []
  | Json.str s :: rest => (allStrings rest).map (fun ss => s :: ss)
  | _ => none

/-- Type name reported for an unexpected top-level JSON value
(src/schema.rs, ConfigFile::from_path). -/
def typeName : Json → String
  | Json.null => "null"
  | Json.bool _ => "boolean"
  | Json.num _ => "number"
  | Json.str _ => "string"
  | Json.arr _ => "array"
  | Json.obj _ => "object"

/-- Config entry structure (src/schema.rs and src/generator.rs, ConfigFile). -/
structure ConfigFile where
  name : String
  extends_ : String
  enabled : Bool
  base_args : Option String
  args : Option (List String)

/-- extends contains a path separator, / or backslash. -/
def hasSep (s : String) : Bool :=
  s.data.any (fun c => c == '/' || c == '\\')

def invalidExtendsMsg (v p : String) : String :=
  "Invalid extends value " ++ v ++ " in " ++ p ++
    "\nOnly template names are allowed"

/-- Parse an optional string-valued field (serde Option of PathBuf). -/
def parseOptPath : Option Json → Except String (Option String)
  | none => Except.ok none
  | some Json.null => Except.ok none
  | some (Json.str s) => Except.ok (some s)
  | some _ => Except.error "invalid type for field baseArgs"

/-- Parse an optional array-of-strings field (serde Option of Vec of String). -/
def parseOptArgs : Option Json → Except String (Option (List String))
  | none => Except.ok none
  | some Json.null => Except.ok none
  | some (Json.arr xs) =>
    match allStrings xs with
    | some ss => Except.ok (some ss)
    | none => Except.error "invalid type for field args"
  | some _ => Except.error "invalid type for field args"

/-- serde deserialization of a ConfigFile from the fields of a JSON object:
the three required fields must be present and well-typed, the two optional
fields default to none, and all other keys are ignored. -/
def parseConfigFields (fields : List (String × Json)) : Except String ConfigFile :=
  match lookupKey fields "name" with
  | none => Except.error "missing field name"
  | some nv =>
    match nv with
    | Json.str nameS =>
      match lookupKey fields "extends" with
      | none => Except.error "missing field extends"
      | some ev =>
        match ev with
        | Json.str extS =>
          match lookupKey fields "enabled" with
          | none => Except.error "missing field enabled"
          | some bv =>
            match bv with
            | Json.bool en =>
              match parseOptPath (lookupKey fields "baseArgs") with
              | Except.error e => Except.error e
              | Except.ok ba =>
                match parseOptArgs (lookupKey fields "args") with
                | Except.error e => Except.error e
                | Except.ok ags => Except.ok ⟨nameS, extS, en, ba, ags⟩
            | _ => Except.error "invalid type for field enabled"
        | _ => Except.error "invalid type for field extends"
    | _ => Except.error "invalid type for field name"

/-- serde deserialization of a ConfigFile from a JSON value. -/
def parseConfigFile (v : Json) : Except String ConfigFile :=
  match v with
  | Json.obj fields => parseConfigFields fields
  | _ => Except.error "invalid type: expected a JSON object"

def legacyMsg (p : String) : String :=
  p ++ " must be a JSON array of configuration objects. " ++
    "Legacy single-object configs are no longer supported."

def rootTypeMsg (p t : String) : String :=
  p ++ " must be a JSON array of configuration objects, found " ++ t ++ " instead."

def entryCtxMsg (idx : Nat) (p e : String) : String :=
  "Failed to parse config JSON entry at index " ++ toString idx ++ " in " ++ p ++ ": " ++ e

/-- Per-element parsing of a config source array with index context and
extends validation (src/schema.rs, ConfigFile::from_path, entry loop). -/
def parseEntriesFrom (p : String) (idx : Nat) : List Json → Except String (List ConfigFile)
  | [] => Except.ok []
  | e :: es =>
    match parseConfigFile e with
    | Except.error msg => Except.error (entryCtxMsg idx p msg)
    | Except.ok c =>
      if hasSep c.extends_ then Except.error (invalidExtendsMsg c.extends_ p)
      else
        match parseEntriesFrom p (idx + 1) es with
        | Except.error msg => Except.error msg
        | Except.ok cs => Except.ok (c :: cs)

/-- ConfigFile::from_path (src/schema.rs) on the parsed JSON root: an array
yields one entry per element, an object is the rejected legacy format, and
any other root type is reported with its type name. -/
def parseConfigSource (p : String) (root : Json) : Except String (List ConfigFile) :=
  match root with
  | Json.arr items => parseEntriesFrom p 0 items
  | Json.obj _ => Except.error (legacyMsg p)
  | other => Except.error (rootTypeMsg p (typeName other))

/-- Validated template (src/schema.rs, Template). -/
structure Template where
  type_field : String
  request : Option String
  program : Option String
  stop_at_entry : Option Bool
  rest : List (String × Json)

def reservedArgsMsg : String :=
  "Template must not define args; use config files to set args"

def restKey (k : String) : Bool :=
  !(k == "type" || k == "request" || k == "program" || k == "stopAtEntry")

/-- Template::from_value (src/schema.rs): requires a JSON object, rejects a
reserved args key before anything else, requires a string type field, is
permissive about the optional fields, and keeps all remaining fields in
their original order. -/
def Template.from_value (v : Json) : Except String Template :=
  match v with
  | Json.obj fields =>
    if containsKey fields "args" then Except.error reservedArgsMsg
    else
      match getString (lookupKey fields "type") with
      | none => Except.error "Template missing required type field"
      | some t =>
        Except.ok ⟨t, getString (lookupKey fields "request"),
          getString (lookupKey fields "program"),
          getBool (lookupKey fields "stopAtEntry"),
          fields.filter (fun kv => restKey kv.1)⟩
  | _ => Except.error "Template must be a JSON object"

/-- Generation environment: the files visible to one run of the generator.
templates maps a template name to the parsed JSON of
templates_dir/name.json, baseFiles maps a baseArgs path to its parsed
JSON, configFiles maps each config file path to its parsed JSON. -/
structure GenEnv where
  templates : List (String × Json)
  baseFiles : List (String × Json)
  configFiles : List (String × Json)

/-- Output document (src/generator.rs, LaunchJson). -/
structure LaunchJson where
  version : String
  configurations : List Json

/-- Generator::load_template (src/generator.rs): look the template file up
by name and return its raw JSON, with no further validation. -/
def load_template (env : GenEnv) (name : String) : Except String Json :=
  match lookupKey env.templates name with
  | none => Except.error ("Base template " ++ name ++ " not found")
  | some v => Except.ok v

/-- Generator::load_base_args (src/generator.rs): the file must hold an
object with an args key whose value is an array of strings. -/
def load_base_args (env : GenEnv) (p : String) : Except String (List String) :=
  match lookupKey env.baseFiles p with
  | none => Except.error ("Failed to read baseArgs file: " ++ p)
  | some v =>
    match v with
    | Json.obj fields =>
      match lookupKey fields "args" with
      | some (Json.arr items) =>
        match allStrings items with
        | some out => Except.ok out
        | none =>
          Except.error ("Invalid baseArgs format in " ++ p ++
            ": args must be an array of strings")
      | _ =>
        Except.error ("Invalid baseArgs format in " ++ p ++ ": missing args array")
    | _ =>
      Except.error ("Invalid baseArgs format in " ++ p ++ ": missing args array")

/-- The base part of the final args: empty when no baseArgs path is given,
otherwise the contents of the baseArgs file. -/
def loadBaseList (env : GenEnv) : Option String → Except String (List String)
  | none => Except.ok []
  | some p => load_base_args env p

/-- Generator::merge_config (src/generator.rs): start from the template
object, insert the entry name, and insert args = base ++ inline only when
the entry supplied baseArgs or inline args. -/
def merge_config (env : GenEnv) (template : Json) (config : ConfigFile) :
    Except String Json :=
  match template with
  | Json.obj tobj =>
    match loadBaseList env config.base_args with
    | Except.error e => Except.error e
    | Except.ok base =>
      let merged := insertKey tobj "name" (Json.str config.name)
      let final_args := base ++ config.args.getD []
      if config.args.isSome || config.base_args.isSome then
        Except.ok (Json.obj
          (insertKey merged "args" (Json.arr (final_args.map Json.str))))
      else Except.ok (Json.obj merged)
  | _ => Except.error "Template must be a JSON object"

/-- Generator::load_config (src/generator.rs): parse one config file as a
single ConfigFile object, then validate its extends value. -/
def load_config (p : String) (v : Json) : Except String ConfigFile :=
  match parseConfigFile v with
  | Except.error e => Except.error ("Failed to parse config JSON: " ++ p ++ ": " ++ e)
  | Except.ok c =>
    if hasSep c.extends_ then Except.error (invalidExtendsMsg c.extends_ p)
    else Except.ok c

/-- Load every config file, tagging each entry with its source path. -/
def loadConfigs : List (String × Json) → Except String (List (String × ConfigFile))
  | [] => Except.ok []
  | (p, v) :: rest =>
    match load_config p v with
    | Except.error e => Except.error e
    | Except.ok c =>
      match loadConfigs rest with
      | Except.error e => Except.error e
      | Except.ok cs => Except.ok ((p, c) :: cs)

/-- The sublist of entries with enabled set. -/
def enabledOf (configs : List (String × ConfigFile)) : List (String × ConfigFile) :=
  configs.filter (fun pc => pc.2.enabled)

/-- Source paths of all entries carrying a given name, in source order. -/
def pathsWithName (configs : List (String × ConfigFile)) (n : String) : List String :=
  match configs with
  | [] => []
  | pc :: rest =>
    if pc.2.name = n then pc.1 :: pathsWithName rest n else pathsWithName rest n

/-- How many entries of the list carry the given name. -/
def countName (configs : List (String × ConfigFile)) (n : String) : Nat :=
  (pathsWithName configs n).length

def dupMsg (n : String) (files : List String) : String :=
  "Duplicate configuration name " ++ n ++ " found in:\n" ++
    String.intercalate "\n" (files.map (fun f => "  - " ++ f)) ++
    "\nEach configuration must have a unique name."

/-- Byte/codepoint lexicographic comparison on character lists. -/
def charListLt : List Char → List Char → Bool
  | [], [] => false
  | [], _ :: _ => true
  | _ :: _, [] => false
  | a :: as, b :: bs =>
    if a.toNat < b.toNat then true
    else if b.toNat < a.toNat then false
    else charListLt as bs

def charListLe : List Char → List Char → Bool
  | [], _ => true
  | _ :: _, [] => false
  | a :: as, b :: bs =>
    if a.toNat < b.toNat then true
    else if b.toNat < a.toNat then false
    else charListLe as bs

def strLt (a b : String) : Bool := charListLt a.data b.data

def strLe (a b : String) : Bool := charListLe a.data b.data

/-- Sorted insertion without duplicates: the key set of a BTreeMap built by
inserting each name, enumerated in ascending order. -/
def insertND (x : String) : List String → List String
  | [] => [x]
  | y :: ys =>
    if x = y then y :: ys
    else if strLt x y then x :: y :: ys
    else y :: insertND x ys

def sortDedup : List String → List String
  | [] => []
  | x :: xs => insertND x (sortDedup xs)

/-- Scan the (sorted) distinct names; the first name owned by more than one
source fails with the duplicate-name error listing every owning source. -/
def checkDup (configs : List (String × ConfigFile)) : List String → Except String Unit
  | [] => Except.ok ()
  | n :: rest =>
    if 1 < (pathsWithName configs n).length then
      Except.error (dupMsg n (pathsWithName configs n))
    else checkDup configs rest

/-- Generator::validate_unique_names (src/generator.rs): group the given
entries by name in a BTreeMap and fail on any name owned by more than one
source. -/
def validate_unique_names (configs : List (String × ConfigFile)) : Except String Unit :=
  checkDup configs (sortDedup (configs.map (fun pc => pc.2.name)))

/-- Stable insertion by path, modelling the sort in collect_config_files. -/
def insertByPath (x : String × Json) :
    List (String × Json) → List (String × Json)
  | [] => [x]
  | y :: ys => if strLe x.1 y.1 then x :: y :: ys else y :: insertByPath x ys

def sortByPath : List (String × Json) → List (String × Json)
  | [] => []
  | x :: xs => insertByPath x (sortByPath xs)

/-- Resolve every enabled entry in order: look its template up (with the
config path as error context) and merge. -/
def resolveAll (env : GenEnv) : List (String × ConfigFile) → Except String (List Json)
  | [] => Except.ok []
  | (p, c) :: rest =>
    match load_template env c.extends_ with
    | Except.error e => Except.error ("Error processing config: " ++ p ++ ": " ++ e)
    | Except.ok t =>
      match merge_config env t c with
      | Except.error e => Except.error e
      | Except.ok merged =>
        match resolveAll env rest with
        | Except.error e => Except.error e
        | Except.ok ms => Except.ok (merged :: ms)

def noConfigMsg : String := "No configuration files found"

def noEnabledMsg : String := "No enabled configuration files found"

/-- Generator::generate (src/generator.rs): collect the config files in
path order, load them, filter out disabled entries, validate uniqueness of
the enabled names, resolve each enabled entry against its template in that
order, and wrap the result in the output document. -/
def generate (env : GenEnv) : Except String LaunchJson :=
  if (sortByPath env.configFiles).isEmpty then Except.error noConfigMsg
  else
    match loadConfigs (sortByPath env.configFiles) with
    | Except.error e => Except.error e
    | Except.ok configs =>
      if (enabledOf configs).isEmpty then Except.error noEnabledMsg
      else
        match validate_unique_names (enabledOf configs) with
        | Except.error e => Except.error e
        | Except.ok _ =>
          match resolveAll env (enabledOf configs) with
          | Except.error e => Except.error e
          | Except.ok cs => Except.ok ⟨"0.2.0", cs⟩

/-- The name field of a resolved configuration object. -/
def nameOf (j : Json) : Option Json :=
  match j with
  | Json.obj m => lookupKey m "name"
  | _ => none

/-- Whether a resolved configuration object carries an args key. -/
def hasArgsKey (j : Json) : Bool :=
  match j with
  | Json.obj m => containsKey m "args"
  | _ => false

/-- The keys a ConfigFile deserializer reads; all others are ignored. -/
def knownKey (k : String) : Bool :=
  k == "name" || k == "extends" || k == "enabled" || k == "baseArgs" || k == "args"

def knownFields (fields : List (String × Json)) : List (String × Json) :=
  fields.filter (fun kv => knownKey kv.1)

/-! Concrete inputs used to instantiate the theorems below. -/

/-- An environment with no files at all. -/
def envE : GenEnv := ⟨[], [], []⟩

/-- Config object named Beta extending cpp, enabled. -/
def objBeta : Json :=
  Json.obj [("name", Json.str "Beta"), ("extends", Json.str "cpp"),
    ("enabled", Json.bool true)]

/-- Config object named Alpha extending cpp, enabled. -/
def objAlpha : Json :=
  Json.obj [("name", Json.str "Alpha"), ("extends", Json.str "cpp"),
    ("enabled", Json.bool true)]

/-- Two config files supplied in path order a.json (Beta), b.json (Alpha). -/
def envC1 : GenEnv :=
  ⟨[("cpp", Json.obj [("type", Json.str "cppdbg")])], [],
    [("a.json", objBeta), ("b.json", objAlpha)]⟩

def tmpl0 : Json := Json.obj [("type", Json.str "cppdbg")]

/-- Entry supplying neither baseArgs nor inline args. -/
def cfg0 : ConfigFile := ⟨"X", "cpp", true, none, none⟩

/-- Template listing type, request, program in that order. -/
def tobjTRP : List (String × Json) :=
  [("type", Json.str "cppdbg"), ("request", Json.str "launch"),
    ("program", Json.str "x")]

/-- Entry named X with inline args only. -/
def cfgX : ConfigFile := ⟨"X", "cpp", true, none, some ["--x"]⟩

/-- The object merge_config produces from tobjTRP and cfgX. -/
def mTRP : List (String × Json) :=
  [("type", Json.str "cppdbg"), ("request", Json.str "launch"),
    ("program", Json.str "x"), ("name", Json.str "X"),
    ("args", Json.arr [Json.str "--x"])]

def objDup (en : Bool) : Json :=
  Json.obj [("name", Json.str "Dup"), ("extends", Json.str "cpp"),
    ("enabled", Json.bool en)]

/-- Two enabled entries and one disabled entry all named Dup. -/
def envC4 : GenEnv :=
  ⟨[("cpp", Json.obj [("type", Json.str "cppdbg")])], [],
    [("a.json", objDup true), ("b.json", objDup true), ("c.json", objDup false)]⟩

/-- The entries loaded from envC4, tagged with their sources. -/
def cfgsC4 : List (String × ConfigFile) :=
  [("a.json", ⟨"Dup", "cpp", true, none, none⟩),
   ("b.json", ⟨"Dup", "cpp", true, none, none⟩),
   ("c.json", ⟨"Dup", "cpp", false, none, none⟩)]

/-- Environment carrying one baseArgs file with args a, b. -/
def envB : GenEnv :=
  ⟨[], [("base.json", Json.obj [("args", Json.arr [Json.str "a", Json.str "b"])])], []⟩

/-- Entry with a baseArgs file and inline args c. -/
def cfgB : ConfigFile := ⟨"T", "cpp", true, some "base.json", some ["c"]⟩

/-- The ConfigFile parsed from objBeta. -/
def cfgBeta : ConfigFile := ⟨"Beta", "cpp", true, none, none⟩

/-- A template object carrying the reserved args key. -/
def fieldsA : List (String × Json) :=
  [("type", Json.str "cppdbg"), ("args", Json.arr [])]

/-- Config object whose extends value is a path. -/
def vEvil : Json :=
  Json.obj [("name", Json.str "Evil"), ("extends", Json.str "../evil"),
    ("enabled", Json.bool true)]

/-- The ConfigFile parsed from vEvil. -/
def cEvil : ConfigFile := ⟨"Evil", "../evil", true, none, none⟩

/-- Config entry object with an unknown extra key cwd. -/
def fieldsW : List (String × Json) :=
  [("name", Json.str "N"), ("extends", Json.str "cpp"),
    ("enabled", Json.bool true), ("cwd", Json.str "x")]

def tobjW : List (String × Json) := [("type", Json.str "t")]

def cfgW : ConfigFile := ⟨"N", "cpp", true, none, none⟩

/-- The object merge_config produces from tobjW and cfgW. -/
def mW : List (String × Json) := [("type", Json.str "t"), ("name", Json.str "N")]

/-! Helper lemmas. -/

theorem lookup_insertKey_self (l : List (String × Json)) (k : String) (v : Json) :
    lookupKey (insertKey l k v) k = some v := by
  induction l with
  | nil => simp [insertKey, lookupKey]
  | cons bw rest ih =>
    obtain ⟨b, w⟩ := bw
    by_cases hk : b = k
    · simp [insertKey, lookupKey, hk]
    · simp [insertKey, lookupKey, hk, ih]

theorem lookup_insertKey_ne (l : List (String × Json)) (k : String) (v : Json)
    (k' : String) (h : k' ≠ k) :
    lookupKey (insertKey l k v) k' = lookupKey l k' := by
  induction l with
  | nil =>
    simp only [insertKey, lookupKey]
    rw [if_neg (fun he => h he.symm)]
  | cons bw rest ih =>
    obtain ⟨b, w⟩ := bw
    by_cases hk : b = k
    · subst hk
      simp only [insertKey, lookupKey, if_pos rfl]
      rw [if_neg (fun he => h he.symm), if_neg (fun he => h he.symm)]
    · by_cases hk' : b = k'
      · subst hk'
        simp only [insertKey]
        rw [if_neg hk]
        simp [lookupKey]
      · simp [insertKey, lookupKey, hk, hk', ih]

theorem keys_insertKey (l : List (String × Json)) (k : String) (v : Json)
    (a : String) (h : a ∈ (insertKey l k v).map Prod.fst) :
    a ∈ l.map Prod.fst ∨ a = k := by
  induction l with
  | nil => right; simpa [insertKey] using h
  | cons bw rest ih =>
    obtain ⟨b, w⟩ := bw
    have hmapc : ((b, w) :: rest).map Prod.fst = b :: rest.map Prod.fst := by simp
    by_cases hk : b = k
    · have hl : (insertKey ((b, w) :: rest) k v).map Prod.fst =
          b :: rest.map Prod.fst := by simp [insertKey, hk]
      rw [hl] at h
      left; rw [hmapc]; exact h
    · have hl : (insertKey ((b, w) :: rest) k v).map Prod.fst =
          b :: (insertKey rest k v).map Prod.fst := by simp [insertKey, hk]
      rw [hl] at h
      rcases List.mem_cons.mp h with h1 | h1
      · left; rw [hmapc]; exact List.mem_cons.mpr (Or.inl h1)
      · rcases ih h1 with h2 | h2
        · left; rw [hmapc]; exact List.mem_cons.mpr (Or.inr h2)
        · right; exact h2

theorem lookup_filter (p : String → Bool) (l : List (String × Json)) (k : String)
    (hp : p k = true) :
    lookupKey (l.filter (fun kv => p kv.1)) k = lookupKey l k := by
  induction l with
  | nil => rfl
  | cons bw rest ih =>
    obtain ⟨b, w⟩ := bw
    by_cases hk : b = k
    · have hpb : p b = true := by rw [hk]; exact hp
      rw [List.filter_cons_of_pos (by simpa using hpb)]
      simp [lookupKey, hk]
    · by_cases hpb : p b = true
      · rw [List.filter_cons_of_pos (by simpa using hpb)]
        simp [lookupKey, hk, ih]
      · rw [List.filter_cons_of_neg (by simpa using hpb)]
        simp [lookupKey, hk, ih]

theorem merge_config_cases (env : GenEnv) (tobj : List (String × Json))
    (config : ConfigFile) (m : List (String × Json))
    (h : merge_config env (Json.obj tobj) config = Except.ok (Json.obj m)) :
    (∃ a, m = insertKey (insertKey tobj "name" (Json.str config.name)) "args" a) ∨
      m = insertKey tobj "name" (Json.str config.name) := by
  cases hb : loadBaseList env config.base_args with
  | error e => simp [merge_config, hb] at h
  | ok base =>
    simp only [merge_config, hb] at h
    split at h
    · simp only [Except.ok.injEq, Json.obj.injEq] at h
      exact Or.inl ⟨_, h.symm⟩
    · simp only [Except.ok.injEq, Json.obj.injEq] at h
      exact Or.inr h.symm

theorem insertND_mem (x a : String) (l : List String) :
    a ∈ insertND x l ↔ a = x ∨ a ∈ l := by
  induction l with
  | nil => simp [insertND]
  | cons y ys ih =>
    by_cases hxy : x = y
    · subst hxy
      simp [insertND]
    · by_cases hlt : strLt x y = true
      · simp [insertND, hxy, hlt]
      · simp [insertND, hxy, hlt, ih]
        tauto

theorem sortDedup_mem (a : String) (l : List String) :
    a ∈ sortDedup l ↔ a ∈ l := by
  induction l with
  | nil => simp [sortDedup]
  | cons x xs ih =>
    simp [sortDedup, insertND_mem, ih]

theorem countName_pos_mem (configs : List (String × ConfigFile)) (n : String)
    (h : 0 < countName configs n) :
    n ∈ configs.map (fun pc => pc.2.name) := by
  induction configs with
  | nil => simp [countName, pathsWithName] at h
  | cons pc rest ih =>
    by_cases hn : pc.2.name = n
    · simp [hn]
    · have : countName rest n = countName (pc :: rest) n := by
        simp [countName, pathsWithName, hn]
      rw [← this] at h
      simp
      exact Or.inr (by simpa using ih h)

theorem checkDup_ok (configs : List (String × ConfigFile)) (L : List String)
    (h : ∀ n ∈ L, (pathsWithName configs n).length ≤ 1) :
    checkDup configs L = Except.ok () := by
  induction L with
  | nil => rfl
  | cons a L ih =>
    have ha : ¬ 1 < (pathsWithName configs a).length := by
      have := h a (by simp)
      omega
    simp only [checkDup, if_neg ha]
    exact ih (fun n hn => h n (by simp [hn]))

theorem checkDup_error (configs : List (String × ConfigFile)) (L : List String)
    (n : String) (hn : n ∈ L) (h2 : 2 ≤ countName configs n) :
    ∃ m, 2 ≤ countName configs m ∧
      checkDup configs L = Except.error (dupMsg m (pathsWithName configs m)) := by
  induction L with
  | nil => cases hn
  | cons a L ih =>
    by_cases ha : 1 < (pathsWithName configs a).length
    · exact ⟨a, ha, by simp [checkDup, if_pos ha]⟩
    · have hna : n ≠ a := by
        intro he
        subst he
        exact ha h2
      have hn' : n ∈ L := by
        rcases List.mem_cons.mp hn with h1 | h1
        · exact absurd h1 hna
        · exact h1
      obtain ⟨m, hm, he⟩ := ih hn'
      exact ⟨m, hm, by simp [checkDup, if_neg ha, he]⟩

/-- validate_unique_names succeeds exactly when no name is shared by two of
the given entries. -/
theorem validate_ok_iff (configs : List (String × ConfigFile)) :
    validate_unique_names configs = Except.ok () ↔
      ∀ m, countName configs m ≤ 1 := by
  constructor
  · intro hok m
    by_contra hm
    have h2 : 2 ≤ countName configs m := by omega
    have hmem : m ∈ sortDedup (configs.map fun pc => pc.2.name) :=
      (sortDedup_mem _ _).2 (countName_pos_mem configs m (by omega))
    obtain ⟨m', _, he⟩ := checkDup_error configs _ m hmem h2
    rw [validate_unique_names, he] at hok
    cases hok
  · intro hb
    exact checkDup_ok configs _ (fun n _ => hb n)

theorem isEmpty_false_of_ne_nil {α : Type} (l : List α) (h : l ≠ []) :
    l.isEmpty = false := by
  cases l with
  | nil => exact absurd rfl h
  | cons x xs => rfl

theorem parseEntriesFrom_length (p : String) (es : List Json) :
    ∀ (i : Nat) (cs : List ConfigFile),
      parseEntriesFrom p i es = Except.ok cs → cs.length = es.length := by
  induction es with
  | nil =>
    intro i cs h
    simp only [parseEntriesFrom, Except.ok.injEq] at h
    rw [← h]
    rfl
  | cons e es ih =>
    intro i cs h
    cases hp : parseConfigFile e with
    | error msg => simp [parseEntriesFrom, hp] at h
    | ok c =>
      cases hs : hasSep c.extends_ with
      | true => simp [parseEntriesFrom, hp, hs] at h
      | false =>
        cases hr : parseEntriesFrom p (i + 1) es with
        | error msg => simp [parseEntriesFrom, hp, hs, hr] at h
        | ok cs' =>
          simp only [parseEntriesFrom, hp, hs, hr, Bool.false_eq_true,
            if_false, Except.ok.injEq] at h
          rw [← h]
          simp [ih (i + 1) cs' hr]

/-! Claim theorems. -/

/-- Claim C1 (code bug): generate emits configurations in config-file path
order, not sorted by name.  With sources a.json (name Beta) and b.json
(name Alpha) supplied in that path order, the successful run lists Beta
before Alpha, contradicting the claimed name-ascending order asserted by
the spec and by tests/integration_tests.rs. -/
theorem generate_emits_source_order :
    (generate envC1).map (fun d => d.configurations.map nameOf) =
      Except.ok [some (Json.str "Beta"), some (Json.str "Alpha")] := rfl

/-- Claim C2 counterexample: for an entry supplying neither baseArgs nor
inline args, merge_config succeeds but the resolved configuration carries
no args key at all, refuting that args is never omitted. -/
theorem merge_config_omits_args_cex :
    (merge_config envE tmpl0 cfg0).map hasArgsKey = Except.ok false := rfl

/-- Claim C2 (amended): the resolved configuration contains args equal to
the base-args contents followed by the inline args whenever the entry
supplies baseArgs or inline args; when it supplies neither, no args key is
inserted and the output args is whatever the template carries (absent for
templates without args). -/
theorem merge_config_args_field (env : GenEnv) (tobj : List (String × Json))
    (config : ConfigFile) (base : List String)
    (hbase : loadBaseList env config.base_args = Except.ok base) :
    ((config.args.isSome || config.base_args.isSome) = true →
      ∃ m, merge_config env (Json.obj tobj) config = Except.ok (Json.obj m) ∧
        lookupKey m "args" =
          some (Json.arr ((base ++ config.args.getD []).map Json.str)))
    ∧ ((config.args.isSome || config.base_args.isSome) = false →
      ∃ m, merge_config env (Json.obj tobj) config = Except.ok (Json.obj m) ∧
        lookupKey m "args" = lookupKey tobj "args") := by
  constructor
  · intro hc
    exact ⟨insertKey (insertKey tobj "name" (Json.str config.name)) "args"
        (Json.arr ((base ++ config.args.getD []).map Json.str)),
      by simp [merge_config, hbase, hc],
      by rw [lookup_insertKey_self]⟩
  · intro hc
    exact ⟨insertKey tobj "name" (Json.str config.name),
      by simp [merge_config, hbase, hc],
      by rw [lookup_insertKey_ne _ _ _ _ (by decide)]⟩

/-- Witness for C2: instantiation at an entry supplying neither source. -/
theorem merge_config_args_field_witness :
    ((cfg0.args.isSome || cfg0.base_args.isSome) = true →
      ∃ m, merge_config envE (Json.obj [("type", Json.str "cppdbg")]) cfg0 =
          Except.ok (Json.obj m) ∧
        lookupKey m "args" =
          some (Json.arr (([] ++ cfg0.args.getD []).map Json.str)))
    ∧ ((cfg0.args.isSome || cfg0.base_args.isSome) = false →
      ∃ m, merge_config envE (Json.obj [("type", Json.str "cppdbg")]) cfg0 =
          Except.ok (Json.obj m) ∧
        lookupKey m "args" = lookupKey [("type", Json.str "cppdbg")] "args") :=
  merge_config_args_field envE [("type", Json.str "cppdbg")] cfg0 [] rfl

/-- Claim C3 (code bug): merge_config starts from the template object and
appends name and args at the end, so the key order of the concrete
resolved configuration is type, request, program, name, args — not the
claimed fixed order type, request, name, program, args asserted by the
spec and by the key-ordering test in src/lib.rs. -/
theorem merge_config_insertion_order :
    merge_config envE (Json.obj tobjTRP) cfgX = Except.ok (Json.obj mTRP) := rfl

/-- Claim C4: name-uniqueness is validated over the enabled entries only:
validation succeeds exactly when no name is shared by two enabled entries
(disabled entries never participate), and whenever some name is shared by
two or more enabled entries, generate fails with the duplicate-name error
listing every enabled source carrying the offending name. -/
theorem generate_unique_names_enabled_only (env : GenEnv)
    (configs : List (String × ConfigFile)) (n : String)
    (hload : loadConfigs (sortByPath env.configFiles) = Except.ok configs)
    (hdup : 2 ≤ countName (enabledOf configs) n) :
    (validate_unique_names (enabledOf configs) = Except.ok () ↔
      ∀ m, countName (enabledOf configs) m ≤ 1)
    ∧ ∃ m, 2 ≤ countName (enabledOf configs) m ∧
        generate env = Except.error (dupMsg m (pathsWithName (enabledOf configs) m)) := by
  refine ⟨validate_ok_iff (enabledOf configs), ?_⟩
  have hne : n ∈ (enabledOf configs).map (fun pc => pc.2.name) :=
    countName_pos_mem _ n (by omega)
  have hmem : n ∈ sortDedup ((enabledOf configs).map fun pc => pc.2.name) :=
    (sortDedup_mem _ _).2 hne
  obtain ⟨m, hm, herr⟩ := checkDup_error (enabledOf configs) _ n hmem hdup
  refine ⟨m, hm, ?_⟩
  have henil : enabledOf configs ≠ [] := by
    intro h0
    rw [h0] at hne
    simp at hne
  have hcnil : configs ≠ [] := by
    intro h0
    rw [h0] at henil
    exact henil rfl
  have hfne : sortByPath env.configFiles ≠ [] := by
    intro h0
    rw [h0] at hload
    simp only [loadConfigs, Except.ok.injEq] at hload
    exact hcnil hload.symm
  have hfe : (sortByPath env.configFiles).isEmpty = false :=
    isEmpty_false_of_ne_nil _ hfne
  have hee : (enabledOf configs).isEmpty = false :=
    isEmpty_false_of_ne_nil _ henil
  have hv : validate_unique_names (enabledOf configs) =
      Except.error (dupMsg m (pathsWithName (enabledOf configs) m)) := herr
  simp [generate, hfe, hload, hee, hv]

/-- Witness for C4: two enabled entries and a disabled entry all named Dup;
generate fails listing exactly the two enabled sources. -/
theorem generate_unique_names_enabled_only_witness :
    (validate_unique_names (enabledOf cfgsC4) = Except.ok () ↔
      ∀ m, countName (enabledOf cfgsC4) m ≤ 1)
    ∧ ∃ m, 2 ≤ countName (enabledOf cfgsC4) m ∧
        generate envC4 = Except.error (dupMsg m (pathsWithName (enabledOf cfgsC4) m)) :=
  generate_unique_names_enabled_only envC4 cfgsC4 "Dup" rfl (by decide)

/-- Claim C5: when the entry has both a baseArgs file and inline args, the
resolved args is the baseArgs list followed by the inline list, each in
its own order. -/
theorem merge_args_concat_order (env : GenEnv) (tobj : List (String × Json))
    (config : ConfigFile) (p : String) (base inl : List String)
    (hb : config.base_args = some p) (ha : config.args = some inl)
    (hload : load_base_args env p = Except.ok base) :
    ∃ m, merge_config env (Json.obj tobj) config = Except.ok (Json.obj m) ∧
      lookupKey m "args" = some (Json.arr ((base ++ inl).map Json.str)) := by
  have hbase : loadBaseList env config.base_args = Except.ok base := by
    rw [hb]
    exact hload
  exact ⟨insertKey (insertKey tobj "name" (Json.str config.name)) "args"
      (Json.arr ((base ++ inl).map Json.str)),
    by simp [merge_config, hbase, ha],
    by rw [lookup_insertKey_self]⟩

/-- Witness for C5: baseArgs a, b with inline c resolves to a, b, c. -/
theorem merge_args_concat_order_witness :
    ∃ m, merge_config envB (Json.obj [("type", Json.str "cppdbg")]) cfgB =
        Except.ok (Json.obj m) ∧
      lookupKey m "args" = some (Json.arr ((["a", "b"] ++ ["c"]).map Json.str)) :=
  merge_args_concat_order envB [("type", Json.str "cppdbg")] cfgB
    "base.json" ["a", "b"] ["c"] rfl rfl rfl

/-- Claim C6: in the resolved configuration, name is the entry name and
every key other than name and args is exactly the template's value for
that key — the entry controls nothing else. -/
theorem merge_template_fields_exclusive (env : GenEnv)
    (tobj : List (String × Json)) (config : ConfigFile)
    (m : List (String × Json))
    (h : merge_config env (Json.obj tobj) config = Except.ok (Json.obj m)) :
    lookupKey m "name" = some (Json.str config.name) ∧
      ∀ k, k ≠ "name" → k ≠ "args" → lookupKey m k = lookupKey tobj k := by
  rcases merge_config_cases env tobj config m h with ⟨a, hm⟩ | hm
  · subst hm
    refine ⟨?_, ?_⟩
    · rw [lookup_insertKey_ne _ _ _ _ (by decide), lookup_insertKey_self]
    · intro k hk1 hk2
      rw [lookup_insertKey_ne _ _ _ _ hk2, lookup_insertKey_ne _ _ _ _ hk1]
  · subst hm
    refine ⟨?_, ?_⟩
    · rw [lookup_insertKey_self]
    · intro k hk1 hk2
      rw [lookup_insertKey_ne _ _ _ _ hk1]

/-- Witness for C6: concrete template fields pass through unchanged. -/
theorem merge_template_fields_exclusive_witness :
    lookupKey mTRP "name" = some (Json.str cfgX.name) ∧
      lookupKey mTRP "type" = lookupKey tobjTRP "type" :=
  ⟨(merge_template_fields_exclusive envE tobjTRP cfgX mTRP rfl).1,
   (merge_template_fields_exclusive envE tobjTRP cfgX mTRP rfl).2 "type"
     (by decide) (by decide)⟩

/-- Claim C7: a config source parses to one entry per array element when
the root is an array, fails with the legacy-format error when the root is
an object, and fails with the invalid-root-type error naming the observed
type for any other root. -/
theorem config_source_root_handling (p : String) :
    (∀ items cs, parseConfigSource p (Json.arr items) = Except.ok cs →
      cs.length = items.length)
    ∧ (∀ fields, parseConfigSource p (Json.obj fields) =
        Except.error (legacyMsg p))
    ∧ parseConfigSource p Json.null = Except.error (rootTypeMsg p "null")
    ∧ (∀ b, parseConfigSource p (Json.bool b) =
        Except.error (rootTypeMsg p "boolean"))
    ∧ (∀ n, parseConfigSource p (Json.num n) =
        Except.error (rootTypeMsg p "number"))
    ∧ (∀ s, parseConfigSource p (Json.str s) =
        Except.error (rootTypeMsg p "string")) :=
  ⟨fun items cs h => parseEntriesFrom_length p items 0 cs h,
   fun _ => rfl, rfl, fun _ => rfl, fun _ => rfl, fun _ => rfl⟩

/-- Witness for C7: instantiation at each root shape. -/
theorem config_source_root_handling_witness :
    ([cfgBeta].length = [objBeta].length)
    ∧ parseConfigSource "c.json" (Json.obj []) = Except.error (legacyMsg "c.json")
    ∧ parseConfigSource "c.json" Json.null = Except.error (rootTypeMsg "c.json" "null")
    ∧ parseConfigSource "c.json" (Json.bool true) =
        Except.error (rootTypeMsg "c.json" "boolean")
    ∧ parseConfigSource "c.json" (Json.num 0) =
        Except.error (rootTypeMsg "c.json" "number")
    ∧ parseConfigSource "c.json" (Json.str "x") =
        Except.error (rootTypeMsg "c.json" "string") := by
  have t := config_source_root_handling "c.json"
  exact ⟨t.1 [objBeta] [cfgBeta] rfl, t.2.1 [], t.2.2.1, t.2.2.2.1 true,
    t.2.2.2.2.1 0, t.2.2.2.2.2 "x"⟩

/-- Claim C8: parsing any template object that contains the key args fails
with the reserved-field error, before and regardless of anything else. -/
theorem template_reserved_args_error (fields : List (String × Json))
    (h : containsKey fields "args" = true) :
    Template.from_value (Json.obj fields) = Except.error reservedArgsMsg := by
  simp [Template.from_value, h]

/-- Witness for C8: a concrete template carrying args is rejected. -/
theorem template_reserved_args_error_witness :
    containsKey fieldsA "args" = true ∧
      Template.from_value (Json.obj fieldsA) = Except.error reservedArgsMsg :=
  ⟨rfl, template_reserved_args_error fieldsA rfl⟩

/-- Claim C9: an entry whose extends value contains a path separator is
rejected with the invalid-extends error naming the value and the source,
by the per-entry validation of both loaders, and generate fails the same
way for every template store — no template lookup is involved. -/
theorem invalid_extends_rejected_before_lookup (p : String) (v : Json)
    (c : ConfigFile) (hparse : parseConfigFile v = Except.ok c)
    (hsep : hasSep c.extends_ = true) :
    load_config p v = Except.error (invalidExtendsMsg c.extends_ p)
    ∧ parseConfigSource p (Json.arr [v]) =
        Except.error (invalidExtendsMsg c.extends_ p)
    ∧ ∀ (ts bs : List (String × Json)),
        generate ⟨ts, bs, [(p, v)]⟩ =
          Except.error (invalidExtendsMsg c.extends_ p) := by
  have h1 : load_config p v = Except.error (invalidExtendsMsg c.extends_ p) := by
    simp [load_config, hparse, hsep]
  refine ⟨h1, ?_, ?_⟩
  · simp [parseConfigSource, parseEntriesFrom, hparse, hsep]
  · intro ts bs
    simp [generate, sortByPath, insertByPath, loadConfigs, h1]

/-- Witness for C9: extends value ../evil is rejected for the empty
template store. -/
theorem invalid_extends_rejected_before_lookup_witness :
    load_config "cfg.json" vEvil =
        Except.error (invalidExtendsMsg "../evil" "cfg.json")
    ∧ parseConfigSource "cfg.json" (Json.arr [vEvil]) =
        Except.error (invalidExtendsMsg "../evil" "cfg.json")
    ∧ generate ⟨[], [], [("cfg.json", vEvil)]⟩ =
        Except.error (invalidExtendsMsg "../evil" "cfg.json") := by
  have t := invalid_extends_rejected_before_lookup "cfg.json" vEvil cEvil rfl
    (by decide)
  exact ⟨t.1, t.2.1, t.2.2 [] []⟩

/-- Claim C10: deserializing a config entry reads only the five known keys,
so unknown keys never affect the parse, and every key of a resolved
configuration is a template key, name, or args — unknown entry keys never
reach the output. -/
theorem config_entry_ignores_unknown_keys (fields : List (String × Json)) :
    parseConfigFields fields = parseConfigFields (knownFields fields)
    ∧ ∀ (env : GenEnv) (tobj : List (String × Json)) (config : ConfigFile)
        (m : List (String × Json)),
        merge_config env (Json.obj tobj) config = Except.ok (Json.obj m) →
        ∀ k, k ∈ m.map Prod.fst → k ∈ tobj.map Prod.fst ∨ k = "name" ∨ k = "args" := by
  constructor
  · unfold parseConfigFields knownFields
    rw [lookup_filter knownKey fields "name" rfl,
        lookup_filter knownKey fields "extends" rfl,
        lookup_filter knownKey fields "enabled" rfl,
        lookup_filter knownKey fields "baseArgs" rfl,
        lookup_filter knownKey fields "args" rfl]
  · intro env tobj config m h k hk
    rcases merge_config_cases env tobj config m h with ⟨a, hm⟩ | hm
    · subst hm
      rcases keys_insertKey _ _ _ _ hk with h1 | h1
      · rcases keys_insertKey _ _ _ _ h1 with h2 | h2
        · exact Or.inl h2
        · exact Or.inr (Or.inl h2)
      · exact Or.inr (Or.inr h1)
    · subst hm
      rcases keys_insertKey _ _ _ _ hk with h1 | h1
      · exact Or.inl h1
      · exact Or.inr (Or.inl h1)

/-- Witness for C10: an entry object with an extra cwd key parses the same
as its restriction to the known keys, and a key of the concrete resolved
output comes from the template or is name or args. -/
theorem config_entry_ignores_unknown_keys_witness :
    parseConfigFields fieldsW = parseConfigFields (knownFields fieldsW)
    ∧ ("type" ∈ tobjW.map Prod.fst ∨ "type" = "name" ∨ "type" = "args") := by
  have t := config_entry_ignores_unknown_keys fieldsW
  exact ⟨t.1, t.2 envE tobjW cfgW mW rfl "type" (by decide)⟩
